import Mathlib

/-!
Verification of the "ponto" time-tracking app core: the record model
(`src/models.py`, `src/app.py`), the versioned JSON store with
compare-and-swap semantics (`src/services/github_store.py`, `src/app.py`),
and the decimal identifier generator (`src/app.py`).

The remote contents API (GitHub REST) is external to the repository; it is
modelled here both abstractly (arbitrary response environments, used to
verify the branch structure of `load` and `commit`) and concretely as a
compare-and-swap state machine (`Remote`), following the interface
description in the spec, section 6.
-/

namespace Ponto

/-- JSON-like values stored in the fields of a record. Records in this app hold
strings, integers and null (the optional `obs` field); arrays/objects never
occur as field values. -/
inductive JVal where
  | jnull : JVal
  | jstr : String → JVal
  | jint : Int → JVal
deriving DecidableEq, Repr

/-- A record dictionary: Python `dict` with string keys, as produced by
`json.loads` on an array element and by `RegistroPonto.to_dict`. -/
abbrev Rec := List (String × JVal)

/-- Python `r.get(k)`: the value at key `k`, or `None` when absent. -/
def recGet (r : Rec) (k : String) : Option JVal :=
  (r.find? (fun p => p.1 = k)).map (fun p => p.2)

/-- Python `r[k] = v`: replace the value at the first occurrence of `k`,
or append the binding when `k` is absent. -/
def recSet (r : Rec) (k : String) (v : JVal) : Rec :=
  match r with
  | [] => [(k, v)]
  | (k0, v0) :: rest =>
    if k0 = k then (k0, v) :: rest else (k0, v0) :: recSet rest k v

/-- Python `str(v)` on a JSON value (`str(None)` is the text "None"). -/
def pyStrV : JVal → String
  | JVal.jnull => "None"
  | JVal.jstr s => s
  | JVal.jint n => toString n

/-- Python `str(r.get(k))`: string form of an optional value. -/
def pyStr : Option JVal → String
  | none => "None"
  | some v => pyStrV v

/-- Python `r.get(k, d)` rendered by an f-string: the stored value printed
with `str`, or the default text when the key is absent. -/
def pyGetD (r : Rec) (k : String) (d : String) : String :=
  match recGet r k with
  | some v => pyStrV v
  | none => d

/-- Python `int(v)` as used by `existing_ids_int` (src/app.py): succeeds on
integers and on strings that parse as integers, raises otherwise (`none`). -/
def pyInt : Option JVal → Option Int
  | some (JVal.jint n) => some n
  | some (JVal.jstr s) => s.toInt?
  | _ => none

/-- Function `existing_ids_int` (src/app.py): collect the ids of the records that
convert to `int`, skipping the ones (for example UUIDs) that do not. -/
def existing_ids_int (records : List Rec) : Finset Int :=
  records.foldl
    (fun s r =>
      match pyInt (recGet r "id") with
      | some n => insert n s
      | none => s)
    ∅

/-- Function `generate_decimal_id` (src/app.py): starting from the millisecond
timestamp `base` (the effectful `int(now_local(TZ).timestamp() * 1000)` is
passed in as a parameter), bump by one while the value is taken. -/
def generate_decimal_id (existing : Finset Int) (base : Int) : Int :=
  if base ∈ existing then generate_decimal_id existing (base + 1) else base
termination_by (existing.filter (fun x => base ≤ x)).card
decreasing_by
  apply Finset.card_lt_card
  constructor
  · intro x hx
    simp only [Finset.mem_filter] at hx ⊢
    exact ⟨hx.1, by linarith [hx.2]⟩
  · intro hsub
    have hbase : base ∈ existing.filter (fun x => base + 1 ≤ x) := by
      apply hsub
      simp only [Finset.mem_filter]
      exact ⟨by assumption, le_refl base⟩
    simp only [Finset.mem_filter] at hbase
    linarith [hbase.2]

/-- Repeated identifier generation: produce one identifier per base
timestamp, inserting each into the existing set before the next call, as
successive user actions do in src/app.py (`_save_now` / `_save_manual`). -/
def generate_ids (existing : Finset Int) : List Int → List Int
  | [] => []
  | b :: bs =>
    let i := generate_decimal_id existing b
    i :: generate_ids (insert i existing) bs

/-- Dataclass `RegistroPonto` (src/models.py): one time-clock record. -/
structure RegistroPonto where
  id : String
  usuario : String
  date : String
  time : String
  label : String
  tag : String
  obs : Option String
  created_at : String
deriving DecidableEq, Repr

/-- Method `RegistroPonto.to_dict` (src/models.py): `dataclasses.asdict`, mapping
the eight fields to a dictionary under their field names; the optional
`obs` serializes `None` as JSON null. -/
def RegistroPonto.to_dict (r : RegistroPonto) : Rec :=
  [ ("id", JVal.jstr r.id)
  , ("usuario", JVal.jstr r.usuario)
  , ("date", JVal.jstr r.date)
  , ("time", JVal.jstr r.time)
  , ("label", JVal.jstr r.label)
  , ("tag", JVal.jstr r.tag)
  , ("obs", match r.obs with | none => JVal.jnull | some s => JVal.jstr s)
  , ("created_at", JVal.jstr r.created_at)
  ]

/-- Modelled from the spec: `deserialize()` of section 4.1 is not present
in src/ (records are read back as plain dictionaries); the spec requires a
lossless inverse of `serialize()` using exactly the field names id,
usuario, date, time, label, tag, obs, created_at. -/
def RegistroPonto.from_dict (d : Rec) : Option RegistroPonto :=
  match recGet d "id", recGet d "usuario", recGet d "date",
        recGet d "time", recGet d "label", recGet d "tag",
        recGet d "obs", recGet d "created_at" with
  | some (JVal.jstr i), some (JVal.jstr u), some (JVal.jstr dt),
    some (JVal.jstr tm), some (JVal.jstr lb), some (JVal.jstr tg),
    some ov, some (JVal.jstr ca) =>
    match ov with
    | JVal.jnull => some ⟨i, u, dt, tm, lb, tg, none, ca⟩
    | JVal.jstr s => some ⟨i, u, dt, tm, lb, tg, some s, ca⟩
    | JVal.jint _ => none
  | _, _, _, _, _, _, _, _ => none

/-- Response to a GET of the contents URL (external API, spec section 6).
`decoded` is the result of `base64.b64decode(...).decode("utf-8")` followed
by `json.loads` on the payload content: `none` when that raises (undecodable
or malformed bytes), `some data` otherwise. `sha` is `payload.get("sha")`.
Version tokens are opaque; they are modelled as naturals. -/
structure GetResp where
  status : Nat
  decoded : Option (List Rec)
  sha : Option Nat
deriving DecidableEq, Repr

/-- Response to a PUT of the contents URL (external API, spec section 6).
`contentSha` is `r.json().get("content", \x7b\x7d).get("sha")`. -/
structure PutResp where
  status : Nat
  contentSha : Option Nat
deriving DecidableEq, Repr

/-- The initialization commit message used by `load` on 404
(src/services/github_store.py line 41). -/
def initMessage : String := "Inicializa banco de pontos (arquivo JSON)"

/-- Method `GithubJSONStore.commit` (src/services/github_store.py lines 55-73)
against an arbitrary response environment `putEnv` (what the remote answers
to the PUT of the serialized `data` with precondition `sha` and description
`message`): on 200/201 return the token of the response body, on 409 return
`none` (version conflict, no exception), otherwise raise `RuntimeError`. -/
def commit (putEnv : List Rec → Option Nat → String → PutResp)
    (data : List Rec) (sha : Option Nat) (message : String) :
    Except String (Option Nat) :=
  let r := putEnv data sha message
  if r.status = 200 ∨ r.status = 201 then Except.ok r.contentSha
  else if r.status = 409 then Except.ok none
  else Except.error ("Erro ao gravar no GitHub: " ++ toString r.status)

/-- Method `GithubJSONStore.load` (src/services/github_store.py lines 25-53)
against an arbitrary GET response `g` and PUT environment `putEnv` (used
only in the 404 branch, where the source writes the empty array with the
initialization message): on 200 return the decoded data (the empty list
when decoding raised) with the payload sha; on 404 write `[]` and return
the empty list with the token of that write, raising on a non-success
write status; on any other status raise `RuntimeError`. -/
def load (g : GetResp) (putEnv : List Rec → String → PutResp) :
    Except String (List Rec × Option Nat) :=
  if g.status = 200 then Except.ok (g.decoded.getD [], g.sha)
  else if g.status = 404 then
    let cr := putEnv [] initMessage
    if cr.status = 200 ∨ cr.status = 201 then Except.ok ([], cr.contentSha)
    else Except.error ("Erro ao criar arquivo no GitHub: " ++ toString cr.status)
  else Except.error ("Erro ao carregar arquivo: " ++ toString g.status)

/-- The remote object behind the contents API: either absent or a JSON
array of records together with its current version token, plus a counter
supplying fresh tokens. Modelled from the external interface description
(spec section 6). -/
structure Remote where
  file : Option (List Rec × Nat)
  fresh : Nat
deriving DecidableEq, Repr

/-- GET of the remote object: 200 with content and token when present,
404 when absent (spec section 6). -/
def remoteGet (rm : Remote) : GetResp :=
  match rm.file with
  | some (data, v) => ⟨200, some data, some v⟩
  | none => ⟨404, none, none⟩

/-- PUT of the remote object: compare-and-swap on the version token (spec
section 6 and glossary). Creation without a token succeeds when the object
is absent; an update is accepted only when the supplied token matches the
current one, and is otherwise rejected with 409 without applying any
change; creation over an existing object (422) and update of an absent
object (409, stale token) are rejected without change. -/
def remotePut (rm : Remote) (data : List Rec) (sha : Option Nat) :
    PutResp × Remote :=
  match rm.file, sha with
  | none, none =>
    (⟨201, some rm.fresh⟩, ⟨some (data, rm.fresh), rm.fresh + 1⟩)
  | none, some _ => (⟨409, none⟩, rm)
  | some (_, cur), some v =>
    if v = cur then
      (⟨200, some rm.fresh⟩, ⟨some (data, rm.fresh), rm.fresh + 1⟩)
    else (⟨409, none⟩, rm)
  | some _, none => (⟨422, none⟩, rm)

/-- Method `GithubJSONStore.load` run against the compare-and-swap remote,
threading the remote state (the 404 branch performs a write). -/
def loadCas (rm : Remote) : Except String ((List Rec × Option Nat) × Remote) :=
  let g := remoteGet rm
  if g.status = 200 then Except.ok ((g.decoded.getD [], g.sha), rm)
  else if g.status = 404 then
    let (cr, rm2) := remotePut rm [] none
    if cr.status = 200 ∨ cr.status = 201 then Except.ok (([], cr.contentSha), rm2)
    else Except.error ("Erro ao criar arquivo no GitHub: " ++ toString cr.status)
  else Except.error ("Erro ao carregar arquivo: " ++ toString g.status)

/-- Method `GithubJSONStore.commit` run against the compare-and-swap remote,
threading the remote state. -/
def commitCas (rm : Remote) (data : List Rec) (sha : Option Nat)
    (_message : String) : Except String (Option Nat × Remote) :=
  let (r, rm2) := remotePut rm data sha
  if r.status = 200 ∨ r.status = 201 then Except.ok (r.contentSha, rm2)
  else if r.status = 409 then Except.ok (none, rm2)
  else Except.error ("Erro ao gravar no GitHub: " ++ toString r.status)

/-- The store operations `append_with_retry` and `replace_record` are
written against: a `load` and a `commit` acting on a remote of state type
`σ`. Instantiated by `casAPI` (the compare-and-swap remote, no concurrent
writer) and `conflictAPI` (every update loses the race). -/
structure StoreAPI (σ : Type) where
  loadOp : σ → Except String ((List Rec × Option Nat) × σ)
  commitOp : σ → List Rec → Option Nat → String → Except String (Option Nat × σ)

/-- The compare-and-swap remote with no concurrent writer: between a load
and the following commit the remote state changes only through calls made
by the store itself. -/
def casAPI : StoreAPI Remote := ⟨loadCas, commitCas⟩

/-- A remote under a forced permanent conflict: every update PUT is
answered 409 (a concurrent writer always wins the race), so per the source
`commit` returns `None`; a compare-and-swap rejection applies no change to
the remote (spec glossary). Loads behave as on the ordinary remote. -/
def conflictAPI : StoreAPI Remote :=
  ⟨loadCas, fun rm _ _ _ => Except.ok (none, rm)⟩

/-- The commit message built by `append_with_retry`
(src/services/github_store.py line 79). -/
def appendMessage (record : Rec) : String :=
  "Add ponto " ++ pyGetD record "usuario" "?" ++ " "
    ++ pyGetD record "date" "" ++ " " ++ pyGetD record "time" ""

/-- Method `GithubJSONStore.append_with_retry` (src/services/github_store.py
lines 75-84): up to `maxRetries` times, load fresh state, append the one
record, commit with the just-loaded token; return true on the first commit
yielding a token, recurse on `None` (the `time.sleep` between attempts has
no effect on the result and is not modelled), and return false once the
attempts are exhausted. -/
def append_with_retry {σ : Type} (api : StoreAPI σ) (record : Rec) :
    Nat → σ → Except String (Bool × σ)
  | 0, s => Except.ok (false, s)
  | Nat.succ n, s =>
    match api.loadOp s with
    | Except.error e => Except.error e
    | Except.ok ((data, sha), s1) =>
      match api.commitOp s1 (data ++ [record]) sha (appendMessage record) with
      | Except.error e => Except.error e
      | Except.ok (some _, s2) => Except.ok (true, s2)
      | Except.ok (none, s2) => append_with_retry api record n s2

/-- One attempt of `append_with_retry` as observed on the wire: the data
and token the load returned, the list the attempt committed, and the
result of the commit. -/
structure Attempt where
  loaded : List Rec
  sha : Option Nat
  committed : List Rec
  result : Option Nat
deriving DecidableEq, Repr

/-- The retry loop `append_with_retry` instrumented with the trace of its
attempts; used
to state how many attempts run and what each one does. -/
def append_run {σ : Type} (api : StoreAPI σ) (record : Rec) :
    Nat → σ → Except String (Bool × σ × List Attempt)
  | 0, s => Except.ok (false, s, [])
  | Nat.succ n, s =>
    match api.loadOp s with
    | Except.error e => Except.error e
    | Except.ok ((data, sha), s1) =>
      match api.commitOp s1 (data ++ [record]) sha (appendMessage record) with
      | Except.error e => Except.error e
      | Except.ok (res, s2) =>
        match res with
        | some v => Except.ok (true, s2, [⟨data, sha, data ++ [record], some v⟩])
        | none =>
          match append_run api record n s2 with
          | Except.error e => Except.error e
          | Except.ok (b, s3, tr) =>
            Except.ok (b, s3, ⟨data, sha, data ++ [record], none⟩ :: tr)

/-- The scan loop of `replace_record` (src/app.py lines 288-303): walk the
list, set the `time` field of the first record whose id printed with `str`
equals the requested id, stop there; report whether a match was found. -/
def scanReplace : List Rec → String → String → List Rec × Bool
  | [], _, _ => ([], false)
  | r :: rest, rid, t =>
    if pyStr (recGet r "id") = rid then (recSet r "time" (JVal.jstr t) :: rest, true)
    else
      let (rest2, found) := scanReplace rest rid t
      (r :: rest2, found)

/-- The commit message built by `replace_record` (src/app.py line 302). -/
def replaceMessage (rid t : String) : String :=
  "Atualiza horário id=" ++ rid ++ " para " ++ t

/-- Method `GithubJSONStore.replace_record` (src/app.py lines 288-303): load
once,
scan linearly for the first record whose id matches as strings, set its
`time` field, and if a match was found issue exactly one commit with the
loaded token, returning the truthiness of the resulting token; when no
record matches, return false without committing. -/
def replace_record {σ : Type} (api : StoreAPI σ) (rid t : String) (s : σ) :
    Except String (Bool × σ) :=
  match api.loadOp s with
  | Except.error e => Except.error e
  | Except.ok ((data, sha), s1) =>
    let (data2, found) := scanReplace data rid t
    if found then
      match api.commitOp s1 data2 sha (replaceMessage rid t) with
      | Except.error e => Except.error e
      | Except.ok (newSha, s2) => Except.ok (newSha.isSome, s2)
    else Except.ok (false, s1)

/-! Helper lemmas. -/

/-- The plain retry loop is the instrumented one with the trace dropped. -/
theorem append_with_retry_eq_run {σ : Type} (api : StoreAPI σ) (record : Rec) :
    ∀ (n : Nat) (s : σ),
      append_with_retry api record n s =
        (append_run api record n s).map (fun x => (x.1, x.2.1)) := by
  intro n
  induction n with
  | zero => intro s; rfl
  | succ n ih =>
    intro s
    simp only [append_with_retry, append_run]
    cases hl : api.loadOp s with
    | error e => rfl
    | ok p =>
      obtain ⟨⟨data, sha⟩, s1⟩ := p
      dsimp only
      cases hc : api.commitOp s1 (data ++ [record]) sha (appendMessage record) with
      | error e => rfl
      | ok q =>
        obtain ⟨res, s2⟩ := q
        dsimp only
        cases res with
        | some v => rfl
        | none =>
          dsimp only
          rw [ih s2]
          cases append_run api record n s2 with
          | error e => rfl
          | ok t => obtain ⟨b3, s3, tr3⟩ := t; rfl

/-- The trace never exceeds the attempt budget. -/
theorem append_run_length {σ : Type} (api : StoreAPI σ) (record : Rec) :
    ∀ (n : Nat) (s : σ) (b : Bool) (s2 : σ) (tr : List Attempt),
      append_run api record n s = Except.ok (b, s2, tr) → tr.length ≤ n := by
  intro n
  induction n with
  | zero =>
    intro s b s2 tr h
    simp only [append_run] at h
    cases h
    simp
  | succ n ih =>
    intro s b s2 tr h
    simp only [append_run] at h
    cases hl : api.loadOp s with
    | error e => rw [hl] at h; cases h
    | ok p =>
      obtain ⟨⟨data, sha⟩, s1⟩ := p
      rw [hl] at h
      dsimp only at h
      cases hc : api.commitOp s1 (data ++ [record]) sha (appendMessage record) with
      | error e => rw [hc] at h; cases h
      | ok q =>
        obtain ⟨res, s2x⟩ := q
        rw [hc] at h
        dsimp only at h
        cases res with
        | some v => cases h; simp
        | none =>
          cases hr : append_run api record n s2x with
          | error e => rw [hr] at h; cases h
          | ok t =>
            obtain ⟨b3, s3, tr3⟩ := t
            have hlen := ih s2x b3 s3 tr3 hr
            rw [hr] at h
            dsimp only at h
            cases h
            simpa using hlen

/-- Every attempt in the trace committed exactly the loaded list with the
one record appended. -/
theorem append_run_committed {σ : Type} (api : StoreAPI σ) (record : Rec) :
    ∀ (n : Nat) (s : σ) (b : Bool) (s2 : σ) (tr : List Attempt),
      append_run api record n s = Except.ok (b, s2, tr) →
      ∀ a ∈ tr, a.committed = a.loaded ++ [record] := by
  intro n
  induction n with
  | zero =>
    intro s b s2 tr h
    simp only [append_run] at h
    cases h
    simp
  | succ n ih =>
    intro s b s2 tr h
    simp only [append_run] at h
    cases hl : api.loadOp s with
    | error e => rw [hl] at h; cases h
    | ok p =>
      obtain ⟨⟨data, sha⟩, s1⟩ := p
      rw [hl] at h
      dsimp only at h
      cases hc : api.commitOp s1 (data ++ [record]) sha (appendMessage record) with
      | error e => rw [hc] at h; cases h
      | ok q =>
        obtain ⟨res, s2x⟩ := q
        rw [hc] at h
        dsimp only at h
        cases res with
        | some v =>
          cases h
          intro a ha
          simp only [List.mem_singleton] at ha
          subst ha
          rfl
        | none =>
          cases hr : append_run api record n s2x with
          | error e => rw [hr] at h; cases h
          | ok t =>
            obtain ⟨b3, s3, tr3⟩ := t
            have hcom := ih s2x b3 s3 tr3 hr
            rw [hr] at h
            dsimp only at h
            cases h
            intro a ha
            rcases List.mem_cons.mp ha with ha | ha
            · subst ha; rfl
            · exact hcom a ha

/-- A run returning true ends at its first successful commit: the trace is
a block of conflicted attempts followed by one successful attempt. -/
theorem append_run_true {σ : Type} (api : StoreAPI σ) (record : Rec) :
    ∀ (n : Nat) (s : σ) (s2 : σ) (tr : List Attempt),
      append_run api record n s = Except.ok (true, s2, tr) →
      ∃ pre a, tr = pre ++ [a] ∧ a.result.isSome = true ∧
        ∀ x ∈ pre, x.result = none := by
  intro n
  induction n with
  | zero =>
    intro s s2 tr h
    simp only [append_run] at h
    cases h
  | succ n ih =>
    intro s s2 tr h
    simp only [append_run] at h
    cases hl : api.loadOp s with
    | error e => rw [hl] at h; cases h
    | ok p =>
      obtain ⟨⟨data, sha⟩, s1⟩ := p
      rw [hl] at h
      dsimp only at h
      cases hc : api.commitOp s1 (data ++ [record]) sha (appendMessage record) with
      | error e => rw [hc] at h; cases h
      | ok q =>
        obtain ⟨res, s2x⟩ := q
        rw [hc] at h
        dsimp only at h
        cases res with
        | some v =>
          cases h
          exact ⟨[], ⟨data, sha, data ++ [record], some v⟩, by simp, rfl, by simp⟩
        | none =>
          cases hr : append_run api record n s2x with
          | error e => rw [hr] at h; cases h
          | ok t =>
            obtain ⟨b3, s3, tr3⟩ := t
            rw [hr] at h
            dsimp only at h
            have hb : b3 = true := by
              have := congrArg (fun x => match x with
                | Except.ok (b, _, _) => b
                | Except.error _ => false) h
              simpa using this
            subst hb
            obtain ⟨pre, a, htr, hres, hpre⟩ := ih s2x s3 tr3 hr
            cases h
            refine ⟨⟨data, sha, data ++ [record], none⟩ :: pre, a, by simp [htr], hres, ?_⟩
            intro x hx
            rcases List.mem_cons.mp hx with hx | hx
            · subst hx; rfl
            · exact hpre x hx

/-- A run returning false used its full budget and every commit was
rejected with a version conflict. -/
theorem append_run_false {σ : Type} (api : StoreAPI σ) (record : Rec) :
    ∀ (n : Nat) (s : σ) (s2 : σ) (tr : List Attempt),
      append_run api record n s = Except.ok (false, s2, tr) →
      tr.length = n ∧ ∀ x ∈ tr, x.result = none := by
  intro n
  induction n with
  | zero =>
    intro s s2 tr h
    simp only [append_run] at h
    cases h
    simp
  | succ n ih =>
    intro s s2 tr h
    simp only [append_run] at h
    cases hl : api.loadOp s with
    | error e => rw [hl] at h; cases h
    | ok p =>
      obtain ⟨⟨data, sha⟩, s1⟩ := p
      rw [hl] at h
      dsimp only at h
      cases hc : api.commitOp s1 (data ++ [record]) sha (appendMessage record) with
      | error e => rw [hc] at h; cases h
      | ok q =>
        obtain ⟨res, s2x⟩ := q
        rw [hc] at h
        dsimp only at h
        cases res with
        | some v => cases h
        | none =>
          cases hr : append_run api record n s2x with
          | error e => rw [hr] at h; cases h
          | ok t =>
            obtain ⟨b3, s3, tr3⟩ := t
            rw [hr] at h
            dsimp only at h
            have hb : b3 = false := by
              have := congrArg (fun x => match x with
                | Except.ok (b, _, _) => b
                | Except.error _ => true) h
              simpa using this
            subst hb
            obtain ⟨hlen, hall⟩ := ih s2x s3 tr3 hr
            cases h
            refine ⟨by simp [hlen], ?_⟩
            intro x hx
            rcases List.mem_cons.mp hx with hx | hx
            · subst hx; rfl
            · exact hall x hx

/-- When some record matches, the scan splits the list at the first match
and sets the time field of that record, leaving everything else
unchanged. -/
theorem scanReplace_found :
    ∀ (C : List Rec) (rid t : String),
      (∃ r ∈ C, pyStr (recGet r "id") = rid) →
      ∃ pre r post, C = pre ++ r :: post ∧
        (∀ x ∈ pre, pyStr (recGet x "id") ≠ rid) ∧
        pyStr (recGet r "id") = rid ∧
        scanReplace C rid t = (pre ++ recSet r "time" (JVal.jstr t) :: post, true) := by
  intro C
  induction C with
  | nil =>
    intro rid t h
    obtain ⟨r, hr, _⟩ := h
    cases hr
  | cons r0 rest ih =>
    intro rid t h
    by_cases h0 : pyStr (recGet r0 "id") = rid
    · exact ⟨[], r0, rest, by simp, by simp, h0, by simp [scanReplace, h0]⟩
    · have hrest : ∃ r ∈ rest, pyStr (recGet r "id") = rid := by
        obtain ⟨r, hr, hid⟩ := h
        rcases List.mem_cons.mp hr with hr | hr
        · subst hr; exact absurd hid h0
        · exact ⟨r, hr, hid⟩
      obtain ⟨pre, r, post, hsplit, hpre, hid, hscan⟩ := ih rid t hrest
      refine ⟨r0 :: pre, r, post, by simp [hsplit], ?_, hid, ?_⟩
      · intro x hx
        rcases List.mem_cons.mp hx with hx | hx
        · subst hx; exact h0
        · exact hpre x hx
      · simp [scanReplace, h0, hscan]

/-- When no record matches, the scan returns the list unchanged and
reports no match. -/
theorem scanReplace_notfound :
    ∀ (C : List Rec) (rid t : String),
      (∀ r ∈ C, pyStr (recGet r "id") ≠ rid) →
      scanReplace C rid t = (C, false) := by
  intro C
  induction C with
  | nil => intro rid t _; rfl
  | cons r0 rest ih =>
    intro rid t h
    have h0 : pyStr (recGet r0 "id") ≠ rid := h r0 (by simp)
    have hrest := ih rid t (fun r hr => h r (by simp [hr]))
    simp [scanReplace, h0, hrest]

/-- The generated identifier is free, at least the base, and every value
between the base and it was taken. -/
theorem generate_decimal_id_spec (existing : Finset Int) (base : Int) :
    generate_decimal_id existing base ∉ existing ∧
    base ≤ generate_decimal_id existing base ∧
    ∀ k : Int, base ≤ k → k < generate_decimal_id existing base → k ∈ existing := by
  refine generate_decimal_id.induct existing
    (fun b => generate_decimal_id existing b ∉ existing ∧
      b ≤ generate_decimal_id existing b ∧
      ∀ k : Int, b ≤ k → k < generate_decimal_id existing b → k ∈ existing)
    ?_ ?_ base
  · intro b hmem ih
    rw [generate_decimal_id, if_pos hmem]
    obtain ⟨h1, h2, h3⟩ := ih
    refine ⟨h1, by linarith, ?_⟩
    intro k hk1 hk2
    rcases eq_or_lt_of_le hk1 with hk | hk
    · rw [← hk]; exact hmem
    · exact h3 k (by linarith) hk2
  · intro b hmem
    rw [generate_decimal_id, if_neg hmem]
    exact ⟨hmem, le_refl b, fun k hk1 hk2 => absurd (lt_of_le_of_lt hk1 hk2) (lt_irrefl b)⟩

/-- Identifiers produced in sequence are pairwise distinct and avoid the
initial set. -/
theorem generate_ids_spec :
    ∀ (bs : List Int) (existing : Finset Int),
      (generate_ids existing bs).Nodup ∧
      ∀ i ∈ generate_ids existing bs, i ∉ existing := by
  intro bs
  induction bs with
  | nil => intro existing; simp [generate_ids]
  | cons b bs ih =>
    intro existing
    obtain ⟨hnd, hout⟩ := ih (insert (generate_decimal_id existing b) existing)
    have hfree := (generate_decimal_id_spec existing b).1
    constructor
    · refine List.nodup_cons.mpr ⟨?_, hnd⟩
      intro hmem
      exact hout _ hmem (Finset.mem_insert_self _ _)
    · intro i hi
      rcases List.mem_cons.mp hi with hi | hi
      · subst hi; exact hfree
      · intro hin
        exact hout i hi (Finset.mem_insert_of_mem hin)

/-! Claim theorems. -/

/-- Claim C6: deserializing the serialized form of a record recovers the
record exactly; in particular the serialization over the eight field names
id, usuario, date, time, label, tag, obs, created_at is injective. -/
theorem claim6_record_roundtrip (r : RegistroPonto) :
    RegistroPonto.from_dict (RegistroPonto.to_dict r) = some r := by
  obtain ⟨i, u, d, t, l, g, o, c⟩ := r
  cases o <;> rfl

/-- Claim C7: the generated identifier is never in the existing set, it is
obtained from the base timestamp by monotonic bump-on-collision (it is at
least the base and every smaller candidate from the base up was taken), and
generating a sequence of identifiers while inserting each into the set
yields no collision: the results are pairwise distinct and all outside the
initial set. -/
theorem claim7_id_generation_unique (existing : Finset Int) (base : Int) :
    (generate_decimal_id existing base ∉ existing ∧
      base ≤ generate_decimal_id existing base ∧
      ∀ k : Int, base ≤ k → k < generate_decimal_id existing base → k ∈ existing) ∧
    ∀ bs : List Int,
      (generate_ids existing bs).Nodup ∧
      ∀ i ∈ generate_ids existing bs, i ∉ existing :=
  ⟨generate_decimal_id_spec existing base, fun bs => generate_ids_spec bs existing⟩

/-- Claim C7 witness: a concrete collision with the existing set is bumped
past it, and repeated generation from colliding timestamps stays
collision-free. -/
theorem claim7_id_generation_unique_witness :
    generate_decimal_id ({5, 6} : Finset Int) 5 ∉ ({5, 6} : Finset Int) ∧
    (generate_ids ({5} : Finset Int) [5, 5, 5]).Nodup :=
  ⟨(claim7_id_generation_unique {5, 6} 5).1.1,
   ((claim7_id_generation_unique {5} 5).2 [5, 5, 5]).1⟩

/-- Claim C1: with no concurrent writer (the compare-and-swap remote is
touched only by the call itself, so every commit issued with the just
loaded token is accepted), appending a record to a prior remote collection
C leaves the remote holding exactly C with the one record appended at the
end, under a fresh version token, and the call returns true — for any
positive attempt budget. -/
theorem claim1_append_no_concurrent_writer
    (C : List Rec) (v k : Nat) (R : Rec) (n : Nat) :
    append_with_retry casAPI R (n + 1) ⟨some (C, v), k⟩ =
      Except.ok (true, ⟨some (C ++ [R], k), k + 1⟩) := by
  simp [append_with_retry, casAPI, loadCas, commitCas, remoteGet, remotePut]

/-- Claim C2: for every response environment and every records list,
precondition token and message, commit returns the token carried by an
accepting (200 or 201) response, returns null without raising exactly on a
version-conflict (409) response, and raises a RemoteError on every other
non-success status. -/
theorem claim2_commit_status_behavior
    (putEnv : List Rec → Option Nat → String → PutResp)
    (data : List Rec) (sha : Option Nat) (message : String) :
    ((putEnv data sha message).status = 200 ∨ (putEnv data sha message).status = 201 →
      commit putEnv data sha message = Except.ok (putEnv data sha message).contentSha) ∧
    ((putEnv data sha message).status = 409 →
      commit putEnv data sha message = Except.ok none) ∧
    (¬((putEnv data sha message).status = 200 ∨ (putEnv data sha message).status = 201 ∨
        (putEnv data sha message).status = 409) →
      ∃ msg, commit putEnv data sha message = Except.error msg) := by
  refine ⟨?_, ?_, ?_⟩ <;> intro h
  · simp only [commit, if_pos h]
  · have h2 : ¬((putEnv data sha message).status = 200 ∨
        (putEnv data sha message).status = 201) := by
      rintro (h200 | h201) <;> omega
    simp only [commit, if_neg h2, if_pos h]
  · push_neg at h
    obtain ⟨h200, h201, h409⟩ := h
    have h2 : ¬((putEnv data sha message).status = 200 ∨
        (putEnv data sha message).status = 201) := by
      rintro (hx | hx) <;> [exact h200 hx; exact h201 hx]
    refine ⟨"Erro ao gravar no GitHub: " ++ toString (putEnv data sha message).status, ?_⟩
    simp only [commit, if_neg h2, if_neg h409]

/-- Claim C2 witness: at concrete responses, an accepting write returns
its token, a 409 returns null, and a 500 raises. -/
theorem claim2_commit_status_behavior_witness :
    commit (fun _ _ _ => ⟨200, some 5⟩) [] none "m" = Except.ok (some 5) ∧
    commit (fun _ _ _ => ⟨409, none⟩) [] (some 1) "m" = Except.ok none ∧
    ∃ msg, commit (fun _ _ _ => ⟨500, none⟩) [] (some 1) "m" = Except.error msg :=
  ⟨(claim2_commit_status_behavior (fun _ _ _ => ⟨200, some 5⟩) [] none "m").1 (Or.inl rfl),
   (claim2_commit_status_behavior (fun _ _ _ => ⟨409, none⟩) [] (some 1) "m").2.1 rfl,
   (claim2_commit_status_behavior (fun _ _ _ => ⟨500, none⟩) [] (some 1) "m").2.2
     (by simp)⟩

/-- Claim C4: when the read answers 404, load writes the empty array (with
the initialization message) and returns the empty list with the version
token of that write; when the initializing write answers a non-success
status, load raises a RemoteError. -/
theorem claim4_load_missing_initializes
    (g : GetResp) (putEnv : List Rec → String → PutResp)
    (h404 : g.status = 404) :
    ((putEnv [] initMessage).status = 200 ∨ (putEnv [] initMessage).status = 201 →
      load g putEnv = Except.ok ([], (putEnv [] initMessage).contentSha)) ∧
    (¬((putEnv [] initMessage).status = 200 ∨ (putEnv [] initMessage).status = 201) →
      ∃ msg, load g putEnv = Except.error msg) := by
  have hne : ¬g.status = 200 := by omega
  constructor <;> intro h
  · simp only [load, if_neg hne, if_pos h404, if_pos h]
  · refine ⟨"Erro ao criar arquivo no GitHub: " ++ toString (putEnv [] initMessage).status, ?_⟩
    simp only [load, if_neg hne, if_pos h404, if_neg h]

/-- Claim C4 witness: a 404 read followed by an accepting initializing
write returns the empty array and the token of that write; a failing
initializing write raises. -/
theorem claim4_load_missing_initializes_witness :
    load ⟨404, none, none⟩ (fun _ _ => ⟨201, some 9⟩) = Except.ok ([], some 9) ∧
    ∃ msg, load ⟨404, none, none⟩ (fun _ _ => ⟨500, none⟩) = Except.error msg :=
  ⟨(claim4_load_missing_initializes ⟨404, none, none⟩ (fun _ _ => ⟨201, some 9⟩) rfl).1
     (Or.inr rfl),
   (claim4_load_missing_initializes ⟨404, none, none⟩ (fun _ _ => ⟨500, none⟩) rfl).2
     (by simp)⟩

/-- Claim C5: when the read succeeds (200) but the fetched bytes fail to
decode or parse as JSON, load returns the empty list with the fetched
version token and raises no error. -/
theorem claim5_load_parse_failure_empty
    (g : GetResp) (putEnv : List Rec → String → PutResp)
    (h200 : g.status = 200) (hbad : g.decoded = none) :
    load g putEnv = Except.ok ([], g.sha) := by
  simp only [load, if_pos h200, hbad, Option.getD_none]

/-- Claim C5 witness: malformed bytes under a 200 read yield the empty
collection and the fetched token without raising. -/
theorem claim5_load_parse_failure_empty_witness :
    load ⟨200, none, some 3⟩ (fun _ _ => ⟨500, none⟩) = Except.ok ([], some 3) :=
  claim5_load_parse_failure_empty ⟨200, none, some 3⟩ (fun _ _ => ⟨500, none⟩) rfl rfl

/-- Claim C8: under a forced permanent conflict (every update PUT answered
409) a single-attempt append returns false and the remote object — its
collection, token and counter — is exactly what it was before the call: a
compare-and-swap rejection applies no change. -/
theorem claim8_conflict_no_net_change (C : List Rec) (v k : Nat) (R : Rec) :
    append_with_retry conflictAPI R 1 ⟨some (C, v), k⟩ =
      Except.ok (false, ⟨some (C, v), k⟩) := by
  simp [append_with_retry, conflictAPI, loadCas, remoteGet]

/-- Claim C3: for any remote behavior, an append run makes at most its
budget of attempts, each attempt commits exactly the freshly loaded list
with the single record appended using the just-loaded token, the run
returns true exactly at the first commit yielding a token (all earlier
attempts conflicted), and it returns false only after the full budget of
attempts all yielded null. -/
theorem claim3_append_attempt_trace {σ : Type} (api : StoreAPI σ) (record : Rec)
    (n : Nat) (s : σ) (b : Bool) (s2 : σ) (tr : List Attempt)
    (h : append_run api record n s = Except.ok (b, s2, tr)) :
    append_with_retry api record n s = Except.ok (b, s2) ∧
    tr.length ≤ n ∧
    (∀ a ∈ tr, a.committed = a.loaded ++ [record]) ∧
    (b = true → ∃ pre a, tr = pre ++ [a] ∧ a.result.isSome = true ∧
      ∀ x ∈ pre, x.result = none) ∧
    (b = false → tr.length = n ∧ ∀ x ∈ tr, x.result = none) := by
  refine ⟨?_, append_run_length api record n s b s2 tr h,
    append_run_committed api record n s b s2 tr h, ?_, ?_⟩
  · rw [append_with_retry_eq_run api record n s, h]; rfl
  · intro hb; subst hb; exact append_run_true api record n s s2 tr h
  · intro hb; subst hb; exact append_run_false api record n s s2 tr h

/-- Claim C3 witness: a concrete two-attempt run against the clean
compare-and-swap remote succeeds on its first attempt with a one-element
trace. -/
theorem claim3_append_attempt_trace_witness :
    append_with_retry casAPI [("id", JVal.jstr "x")] 2 ⟨some ([], 0), 1⟩ =
      Except.ok (true, ⟨some ([[("id", JVal.jstr "x")]], 1), 2⟩) ∧
    ([⟨[], some 0, [[("id", JVal.jstr "x")]], some 1⟩] : List Attempt).length ≤ 2 := by
  have h : append_run casAPI [("id", JVal.jstr "x")] 2 ⟨some ([], 0), 1⟩ =
      Except.ok (true, ⟨some ([[("id", JVal.jstr "x")]], 1), 2⟩,
        [⟨[], some 0, [[("id", JVal.jstr "x")]], some 1⟩]) := rfl
  exact ⟨(claim3_append_attempt_trace casAPI _ 2 _ _ _ _ h).1,
         (claim3_append_attempt_trace casAPI _ 2 _ _ _ _ h).2.1⟩

/-- Claim C9: replace_record loads once and scans linearly, setting the
time field of the first record whose identifier equals the requested one
as strings; it issues exactly one commit with the loaded token — on the
clean compare-and-swap remote that commit is accepted and the call returns
true with exactly that one-field change committed, while under a version
conflict there is no retry: the call returns false and the remote is
untouched. -/
theorem claim9_replace_record_single_commit
    (C : List Rec) (v k : Nat) (rid t : String)
    (h : ∃ r ∈ C, pyStr (recGet r "id") = rid) :
    (∃ pre r post, C = pre ++ r :: post ∧
        (∀ x ∈ pre, pyStr (recGet x "id") ≠ rid) ∧
        pyStr (recGet r "id") = rid ∧
        (scanReplace C rid t).1 = pre ++ recSet r "time" (JVal.jstr t) :: post) ∧
    replace_record casAPI rid t ⟨some (C, v), k⟩ =
      Except.ok (true, ⟨some ((scanReplace C rid t).1, k), k + 1⟩) ∧
    replace_record conflictAPI rid t ⟨some (C, v), k⟩ =
      Except.ok (false, ⟨some (C, v), k⟩) := by
  obtain ⟨pre, r, post, hsplit, hpre, hid, hscan⟩ := scanReplace_found C rid t h
  refine ⟨⟨pre, r, post, hsplit, hpre, hid, by rw [hscan]⟩, ?_, ?_⟩
  · simp [replace_record, casAPI, loadCas, remoteGet, commitCas, remotePut, hscan]
  · simp [replace_record, conflictAPI, loadCas, remoteGet, hscan]

/-- Claim C9 witness: editing the time of the one matching record on a
concrete remote commits the scanned list and returns true. -/
theorem claim9_replace_record_single_commit_witness :
    replace_record casAPI "1" "09:00:00" ⟨some ([[("id", JVal.jstr "1")]], 3), 4⟩ =
      Except.ok (true,
        ⟨some ((scanReplace [[("id", JVal.jstr "1")]] "1" "09:00:00").1, 4), 5⟩) :=
  (claim9_replace_record_single_commit [[("id", JVal.jstr "1")]] 3 4 "1" "09:00:00"
    ⟨[("id", JVal.jstr "1")], by simp, rfl⟩).2.1

/-- Claim C10: when the identifier of no record matches the requested one as a
string, replace_record returns false without issuing any write, and the
remote collection, token and counter are unchanged. -/
theorem claim10_replace_record_no_match
    (C : List Rec) (v k : Nat) (rid t : String)
    (h : ∀ r ∈ C, pyStr (recGet r "id") ≠ rid) :
    replace_record casAPI rid t ⟨some (C, v), k⟩ =
      Except.ok (false, ⟨some (C, v), k⟩) := by
  have hscan := scanReplace_notfound C rid t h
  simp [replace_record, casAPI, loadCas, remoteGet, hscan]

/-- Claim C10 witness: an edit aimed at an id absent from a concrete
remote returns false and leaves it unchanged. -/
theorem claim10_replace_record_no_match_witness :
    replace_record casAPI "2" "09:00:00" ⟨some ([[("id", JVal.jstr "1")]], 3), 4⟩ =
      Except.ok (false, ⟨some ([[("id", JVal.jstr "1")]], 3), 4⟩) :=
  claim10_replace_record_no_match [[("id", JVal.jstr "1")]] 3 4 "2" "09:00:00" (by decide)

end Ponto
